import Mathlib

/-!
Verification of the observability multi-agent orchestration engine
(repository `infinite-loop`): a shallow embedding, in Lean 4, of the
plan-execution state machine, the router, the task agents, and the
SQL normalization / validation / repair pipeline, together with proofs
of the structural contracts stated in the design document.

The embedding translates the Python sources:
  * `backend/observability_agent/tools/database.py` (LIMIT injection),
  * `src/observability_agent/agents/metrics.py` (SQL normalization,
    static validation, the bounded repair loop, the metrics node),
  * `backend/observability_agent/agents/router.py` and
    `backend/observability_agent/core/graph.py` (routing / dispatch),
  * `backend/observability_agent/core/state_utils.py` (state deltas),
  * `backend/observability_agent/agents/refusal.py`,
    `src/observability_agent/agents/clarifier.py`,
    `src/observability_agent/agents/planner.py`,
    `backend/observability_agent/agents/chart.py`,
    `backend/observability_agent/agents/diagnostics_summary.py`,
  * `backend/observability_agent/utils/runner.py` (turn initialization),
  * `backend/observability_agent/utils/diagnostics.py` (intent detection).

External capabilities (language-model calls, the SQLite engine) are
modelled as universally quantified oracle functions; machine strings are
Lean `String` / `List Char`, and the Python `re` patterns that the code
uses are translated into explicit character-list scans whose semantics
follow `re`'s leftmost / non-overlapping matching discipline.
-/

namespace ObsAgent

/-! ## Character-class helpers (Python `re` classes, ASCII as used by the code) -/

/-- Python regex `\s` (whitespace) over the ASCII range. -/
def isSpaceP (c : Char) : Bool :=
  c = ' ' || c = '\t' || c = '\n' || c = '\x0d' || c = '\x0b' || c = '\x0c'

/-- Python regex `\w` (word character) over the ASCII range. -/
def isWordC (c : Char) : Bool :=
  c.isAlphanum || c = '_'

/-- Python regex `\d`. -/
def isDigitP (c : Char) : Bool :=
  '0' ≤ c && c ≤ '9'

/-- Python `str.lower` on the ASCII range (agrees with `Char.toLower`). -/
def lowerL (l : List Char) : List Char :=
  l.map Char.toLower

/-- Does `pat` (given in lowercase) start the text `l`, comparing case
insensitively?  Used for the case-insensitive literal patterns. -/
def ciStarts : List Char → List Char → Bool
  | [], _ => true
  | _ :: _, [] => false
  | p :: ps, c :: cs => (c.toLower = p) && ciStarts ps cs

/-- Drop a case-insensitive literal from the front of `l`, or fail. -/
def ciDrop (pat : List Char) (l : List Char) : Option (List Char) :=
  if ciStarts pat l then some (l.drop pat.length) else none

/-- Word-boundary test for the character (if any) just before a match. -/
def bdry : Option Char → Bool
  | none => true
  | some c => !isWordC c

/-- Word-boundary test at the front of the remaining text. -/
def endBdry : List Char → Bool
  | [] => true
  | c :: _ => !isWordC c

/-- Does the (lowercase) literal `pat` occur anywhere in `l` (compared
case insensitively), with word boundaries on both sides?  `prev` is the
character preceding the scan position.  This is `re.search(r"\bPAT\b", l,
re.IGNORECASE)` for a literal `PAT` made of word characters. -/
def kwSearch (pat : List Char) : Option Char → List Char → Bool
  | _, [] => false
  | prev, c :: rest =>
    (bdry prev && ciStarts pat (c :: rest) && endBdry ((c :: rest).drop pat.length))
      || kwSearch pat (some c) rest

/-- Plain (case-sensitive) substring occurrence test (Python `pat in s`). -/
def subSearch (pat : List Char) : List Char → Bool
  | [] => pat.isEmpty
  | c :: rest => pat.isPrefixOf (c :: rest) || subSearch pat rest

/-- Python `str.rstrip(";")`: drop trailing semicolons. -/
def rstripSemis (l : List Char) : List Char :=
  (l.reverse.dropWhile (· = ';')).reverse

/-- Python `str.strip()`: drop leading and trailing whitespace. -/
def stripWs (l : List Char) : List Char :=
  ((l.dropWhile isSpaceP).reverse.dropWhile isSpaceP).reverse

/-! ## `backend/observability_agent/tools/database.py` -/

/-- Embedding of `re.search(r"\bLIMIT\b", sql, re.IGNORECASE)` as used by
`_ensure_limit` and `run_sql`. -/
def hasLimitKw (l : List Char) : Bool :=
  kwSearch "limit".data none l

/-- Embedding of `_ensure_limit` (char-list form): append `LIMIT 100` when the query
carries no `LIMIT` keyword; the query is first stripped of trailing
semicolons and surrounding whitespace, exactly as
`sql.rstrip(";").strip() + f" LIMIT {default_limit}"` does. -/
def ensureLimitL (defaultLimit : Nat) (l : List Char) : List Char :=
  if hasLimitKw l then l
  else stripWs (rstripSemis l) ++ (" LIMIT " ++ toString defaultLimit).data

/-- Embedding of `_ensure_limit` with its default argument `default_limit = 100`. -/
def ensureLimit (sql : String) : String :=
  ⟨ensureLimitL 100 sql.data⟩

/-- The statement `run_sql` actually hands to the SQLite engine: `run_sql`
calls `sql = _ensure_limit(sql)` before `cursor.execute(sql)`. -/
def executedStatement (sql : String) : String :=
  ensureLimit sql

/-! ## `src/observability_agent/agents/metrics.py`: `_normalize_sql`

`_normalize_sql` performs two `re.sub` passes:
  1. `re.sub(r"(?i)string_agg", "GROUP_CONCAT", sql)` — a case-insensitive
     literal replacement, scanning left to right, non-overlapping;
  2. `re.sub(r"GROUP_CONCAT\s*\(\s*DISTINCT\s+([^)]+?),\s*[^)]+?\)",
     lambda m: f"GROUP_CONCAT(DISTINCT {m.group(1)})", ..., re.IGNORECASE)`.
-/

/-- One `re.sub` pass with a case-insensitive literal pattern `pat` (given
lowercase) and replacement `repl`: leftmost-first, non-overlapping.  The
scan consumes at least one character of the text per step, so it is
written with an explicit step budget of the text's length (the
out-of-budget case is unreachable); this keeps the scan structurally
recursive and computable by the kernel. -/
def subLitF (pat repl : List Char) : Nat → List Char → List Char
  | _, [] => []
  | 0, l => l
  | f + 1, c :: rest =>
    if ciStarts pat (c :: rest) then
      repl ++ subLitF pat repl f (rest.drop (pat.length - 1))
    else
      c :: subLitF pat repl f rest

def subLit (pat repl : List Char) (l : List Char) : List Char :=
  subLitF pat repl l.length l

/-- Matching of the trailing `\s*[^)]+?\)` of the DISTINCT-delimiter
pattern, after an auxiliary scan for the first `)`.  Backtracking analysis:
`\s*` is greedy and `[^)]+?` lazy, but every whitespace character is also
a `[^)]` character, so the compound matches exactly when the first `)` of
the text exists and is not the very first character; the match always ends
at that first `)`. -/
def dropToRparen : List Char → Option (List Char)
  | [] => none
  | c :: rest => if c = ')' then some rest else dropToRparen rest

def gcTailMatch : List Char → Option (List Char)
  | [] => none
  | c :: rest => if c = ')' then none else dropToRparen rest

/-- Matching of `([^)]+?),` followed by the tail pattern, with the lazy
group growing through failed commas exactly as the `re` engine backtracks:
the first comma preceded by a non-empty `)`-free group whose tail matches
wins; a `)` aborts the scan. `acc` is the group read so far (reversed). -/
def gcColMatch (acc : List Char) : List Char → Option (List Char × List Char)
  | [] => none
  | c :: rest =>
    if c = ')' then none
    else if c = ',' && !acc.isEmpty then
      match gcTailMatch rest with
      | some rem => some (acc.reverse, rem)
      | none => gcColMatch (c :: acc) rest
    else gcColMatch (c :: acc) rest

/-- Backtracking over the greedy `\s+` after `DISTINCT`: the engine first
consumes the maximal whitespace run `j + 1 = W` and on failure gives
whitespace characters back to the lazy group, down to a single one. -/
def gcWsTries (l : List Char) : Nat → Option (List Char × List Char)
  | 0 => none
  | j + 1 =>
    match gcColMatch [] (l.drop (j + 1)) with
    | some r => some r
    | none => gcWsTries l j

def gcAfterDistinct (l : List Char) : Option (List Char × List Char) :=
  gcWsTries l (l.takeWhile isSpaceP).length

/-- Attempt the full DISTINCT-delimiter pattern at the head of `l`;
returns the captured group (the kept column) and the text after the match.
The `\s*` runs sit before non-whitespace literals (`(` and `DISTINCT`), so
they are the plain maximal whitespace runs. -/
def gcMatchAt (l : List Char) : Option (List Char × List Char) :=
  match ciDrop "group_concat".data l with
  | none => none
  | some r1 =>
    match r1.dropWhile isSpaceP with
    | '(' :: r3 =>
      match ciDrop "distinct".data (r3.dropWhile isSpaceP) with
      | some r5 => gcAfterDistinct r5
      | none => none
    | _ => none

/-- The second `re.sub` pass over the whole text: replace every
leftmost non-overlapping DISTINCT-delimiter match, keeping only the
captured column inside `GROUP_CONCAT(DISTINCT ...)`. -/
def gcStripF : Nat → List Char → List Char
  | _, [] => []
  | 0, l => l
  | f + 1, c :: rest =>
    match gcMatchAt (c :: rest) with
    | some (col, rem) =>
      "GROUP_CONCAT(DISTINCT ".data ++ col ++ ')' :: gcStripF f rem
    | none => c :: gcStripF f rest

def gcStrip (l : List Char) : List Char :=
  gcStripF l.length l

/-- Embedding of `_normalize_sql` (char-list form). -/
def normalizeSqlL (l : List Char) : List Char :=
  gcStrip (subLit "string_agg".data "GROUP_CONCAT".data l)

/-- Embedding of `_normalize_sql`. -/
def normalizeSql (sql : String) : String :=
  ⟨normalizeSqlL sql.data⟩

/-! ## `src/observability_agent/agents/metrics.py`: `_validate_sql` -/

/-- The `ALLOWED_TABLES` tuple. -/
def ALLOWED_TABLES : List String :=
  ["agent_runs", "call_model", "call_tool", "call_chain"]

/-- The `FORBIDDEN_DML` word alternatives (the pattern
`\b(insert|update|delete|drop|create|replace)\b`). -/
def FORBIDDEN_DML_WORDS : List String :=
  ["insert", "update", "delete", "drop", "create", "replace"]

/-- Generic `re.search` driver for a pattern anchored by a leading `\b`:
try the matcher at every position, tracking the preceding character. -/
def scanB (p : List Char → Bool) : Option Char → List Char → Bool
  | _, [] => false
  | prev, c :: rest => (bdry prev && p (c :: rest)) || scanB p (some c) rest

/-- Matcher for `(from|join)\s+TABLE\b` at the current position (the text
is already lowercased, as `_validate_sql` matches against `sql.lower()`). -/
def tableRefAt (table : List Char) (l : List Char) : Bool :=
  match (if "from".data.isPrefixOf l then some (l.drop 4)
         else if "join".data.isPrefixOf l then some (l.drop 4) else none) with
  | none => false
  | some r =>
    match r with
    | c :: _ =>
      isSpaceP c &&
        (let r2 := r.dropWhile isSpaceP
         table.isPrefixOf r2 && endBdry (r2.drop table.length))
    | [] => false

/-- Embedding of the search `(from|join)` + whitespace + table + boundary for some allowed
table. -/
def referencesAllowedTable (lowered : List Char) : Bool :=
  ALLOWED_TABLES.any fun t => scanB (tableRefAt t.data) none lowered

/-- Embedding of `re.search(r"\bvalues\s*\(", lowered)`. -/
def hasValuesClause (lowered : List Char) : Bool :=
  scanB
    (fun l =>
      "values".data.isPrefixOf l &&
        (match (l.drop 6).dropWhile isSpaceP with
         | '(' :: _ => true
         | _ => false))
    none lowered

/-- The single-quote character (the `'` in the union pattern). -/
def singleQuote : Char := Char.ofNat 39

/-- Consume `\s+` (at least one whitespace character, then the maximal
run, the following literal being non-whitespace). -/
def ws1Drop : List Char → Option (List Char)
  | c :: rest => if isSpaceP c then some ((c :: rest).dropWhile isSpaceP) else none
  | [] => none

/-- Embedding of the literal-union search (`union`, `all`, `select`, then a quote). -/
def hasLiteralUnion (lowered : List Char) : Bool :=
  scanB
    (fun l =>
      if "union".data.isPrefixOf l then
        match ws1Drop (l.drop 5) with
        | some r1 =>
          if "all".data.isPrefixOf r1 then
            match ws1Drop (r1.drop 3) with
            | some r2 =>
              if "select".data.isPrefixOf r2 then
                match ws1Drop (r2.drop 6) with
                | some (c :: _) => c = singleQuote
                | _ => false
              else false
            | none => false
          else false
        | none => false
      else false)
    none lowered

/-- Embedding of `FORBIDDEN_DML.search(lowered)`. -/
def hasForbiddenDml (lowered : List Char) : Bool :=
  FORBIDDEN_DML_WORDS.any fun w => kwSearch w.data none lowered

/-- Embedding of `re.search(r"\bstring_agg\b", lowered)`. -/
def hasStringAggWord (lowered : List Char) : Bool :=
  kwSearch "string_agg".data none lowered

/-- Embedding of `_validate_sql`: collect the issue messages in source order. -/
def validateSql (sql : String) : List String :=
  let lowered := lowerL sql.data
  (if !referencesAllowedTable lowered then
    ["Query must reference at least one real table (agent_runs, call_model, call_tool, call_chain)."]
   else []) ++
  (if hasValuesClause lowered then
    ["VALUES clauses are not allowed; query real tables instead of fabricating data."]
   else []) ++
  (if hasLiteralUnion lowered then
    ["Do not union fabricated literals; read from actual tables."]
   else []) ++
  (if hasForbiddenDml lowered then
    ["Only read-only SELECT queries are allowed."]
   else []) ++
  (if hasStringAggWord lowered then
    ["SQLite does not support STRING_AGG; use GROUP_CONCAT."]
   else [])

/-! ## `src/observability_agent/agents/metrics.py`: `_attempt_sql_execution`

The loop `for attempt in range(1, MAX_SQL_ATTEMPTS + 1)` normalizes the
candidate SQL, statically validates it, executes it when clean, and
otherwise — while attempts remain — re-invokes the generation capability
with repair feedback.  External behaviour is abstracted into two oracles:
`exec` (the `run_sql` tool: a result, or the text of the raised database
exception) and `repair` (the structured-output LLM: the `sql_query` of the
i-th repair invocation).  The embedding additionally records the
invocation trace: the candidate SQL entering each iteration, the
normalized SQL each iteration validated, the queries actually handed to
`exec`, and the number of repair calls. -/

/-- Result of the `run_sql` tool: column names plus rows of values. -/
structure ExecResult where
  columns : List String
  rows : List (List String)
deriving DecidableEq, Repr

/-- Outcome (plus trace) of `_attempt_sql_execution`. -/
structure AttemptOut where
  sql : String
  result : Option ExecResult
  lastError : Option String
  repairs : Nat
  executed : List String
  candidates : List String
  validated : List String
deriving DecidableEq, Repr

/-- The constant `MAX_SQL_ATTEMPTS = 3`. -/
def MAX_SQL_ATTEMPTS : Nat := 3

/-- The loop body of `_attempt_sql_execution`, recursing on the number of
remaining attempts (`n + 1` remaining ⟺ `attempt = MAX_SQL_ATTEMPTS - n`;
`n = 0` is the `attempt == MAX_SQL_ATTEMPTS: break` iteration). -/
def attemptGo (exec : String → Except String ExecResult) (repair : Nat → String) :
    Nat → String → Nat → AttemptOut
  | 0, sql, r => ⟨sql, none, none, r, [], [], []⟩
  | n + 1, sql, r =>
    let nsql := normalizeSql sql
    let issues := validateSql nsql
    if issues.isEmpty then
      match exec nsql with
      | .ok res => ⟨nsql, some res, none, r, [nsql], [sql], [nsql]⟩
      | .error e =>
        let err := "Database error: " ++ e
        if n = 0 then ⟨nsql, none, some err, r, [nsql], [sql], [nsql]⟩
        else
          let out := attemptGo exec repair n (repair r) (r + 1)
          ⟨out.sql, out.result, out.lastError, out.repairs,
            nsql :: out.executed, sql :: out.candidates, nsql :: out.validated⟩
    else
      let _err := "Validation errors:\n- " ++ String.intercalate "\n- " issues
      if n = 0 then ⟨nsql, none, some _err, r, [], [sql], [nsql]⟩
      else
        let out := attemptGo exec repair n (repair r) (r + 1)
        ⟨out.sql, out.result, out.lastError, out.repairs,
          out.executed, sql :: out.candidates, nsql :: out.validated⟩

/-- Embedding of `_attempt_sql_execution(initial_response, ...)`: run the loop starting
from the initial generated SQL, with no repair invocations yet. -/
def attemptSqlExecution (exec : String → Except String ExecResult)
    (repair : Nat → String) (initialSql : String) : AttemptOut :=
  attemptGo exec repair MAX_SQL_ATTEMPTS initialSql 0

/-! ## Conversation state (`core/state.py`)

`ObsState` is a Python `TypedDict`; fields that the runner always
initializes are modelled as plain fields, fields that can genuinely be
absent from the dict (`chart_context`, `clarification`,
`diagnostics_context`) as `Option`s, with the `.get(key, default)`
defaults written out at each use site exactly as in the source.
`messages` uses LangGraph's `add_messages` reducer: a node's returned
message list is appended to the running list, so the embedding of a node
returns the post-merge state and "emits no messages" reads as "the
message list is unchanged".  Message `additional_kwargs` metadata is not
part of the model; a message is its role and content. -/

inductive Msg
  | human (content : String)
  | ai (content : String)
deriving DecidableEq, Repr

def Msg.isHuman : Msg → Bool
  | .human _ => true
  | .ai _ => false

def Msg.content : Msg → String
  | .human c => c
  | .ai c => c

/-- A result row, as the dict `{col: value}` built by `zip(columns, row)`. -/
abbrev Row := List (String × String)

/-- A plan step's `input_context`: free text or the structured hint dict
used by diagnostics plans. -/
inductive InputCtx
  | str (s : String)
  | dict (metric mode : Option String) (baselineHours recentHours : Option Nat)
deriving DecidableEq, Repr

/-- A plan step (a Python dict read exclusively through `.get`). -/
structure PlanStep where
  stepNumber : Option Nat := none
  agent : Option String := none
  objective : Option String := none
  inputContext : Option InputCtx := none
  successCriteria : Option String := none
  name : Option String := none
deriving DecidableEq, Repr

structure ChartCtx where
  rows : List Row := []
  metadata : List (String × String) := []
  rawRows : Option (List Row) := none
deriving DecidableEq, Repr

structure Clarification where
  status : String := "none"
  question : Option String := none
deriving DecidableEq, Repr

structure DiagResult where
  name : String
  description : String
  rows : List Row
deriving DecidableEq, Repr

structure DiagCtx where
  targetMetric : Option String := none
  baselineWindowHours : Option Nat := none
  recentWindowHours : Option Nat := none
  results : List DiagResult := []
deriving DecidableEq, Repr

structure ObsState where
  messages : List Msg
  activeAgent : String
  lastRows : List Row
  chartContext : Option ChartCtx := none
  plan : List PlanStep
  planStepIndex : Nat
  planMode : String
  clarification : Option Clarification := none
  diagnosticsContext : Option DiagCtx := none
  hasError : Bool
deriving DecidableEq, Repr

/-- Python string truthiness for `a or b` on an optional string. -/
def pyOr (o : Option String) (d : String) : String :=
  match o with
  | some x => if x = "" then d else x
  | none => d

/-! ## `backend/observability_agent/core/state_utils.py` -/

/-- Embedding of `_default_chart_context`: `state.get("chart_context", ...)` with `"rows":
last_rows, "metadata": {}}) or DEFAULT_CHART_CONTEXT` (every chart
context ever written is a non-empty dict, hence truthy). -/
def defaultChartContext (s : ObsState) : ChartCtx :=
  match s.chartContext with
  | some c => c
  | none => { rows := s.lastRows, metadata := [] }

/-- Embedding of `agent_state_update(state, messages=..., active_agent=..., **updates)`
before applying `updates`: callers override fields with a record update.
`has_error` is not part of the response dict, so the merged state keeps
the previous value. -/
def agentStateUpdate (s : ObsState) (messages : List Msg)
    (activeAgent : Option String) : ObsState :=
  { messages := s.messages ++ messages
    activeAgent := pyOr activeAgent s.activeAgent
    lastRows := s.lastRows
    chartContext := some (defaultChartContext s)
    plan := s.plan
    planStepIndex := s.planStepIndex
    planMode := s.planMode
    clarification := some (s.clarification.getD { status := "none" })
    diagnosticsContext := some (s.diagnosticsContext.getD { results := [] })
    hasError := s.hasError }

/-! ## `backend/observability_agent/agents/refusal.py` -/

def REFUSAL_MESSAGE : String :=
  "I cannot help with this request as it is either unrelated to observability analysis " ++
  "or could potentially harm the system. If you need token/metrics/chart analysis, " ++
  "please be specific about your requirements."

def refusalAgentNode (s : ObsState) : ObsState :=
  { agentStateUpdate s [Msg.ai REFUSAL_MESSAGE] (some "refusal_agent") with
    planStepIndex := s.planStepIndex + 1
    plan := [] }

/-! ## `src/observability_agent/agents/clarifier.py` -/

def DEFAULT_FOLLOWUP : String := "조금 더 구체적으로 설명해 주실 수 있을까요?"

def clarifierAgentNode (s : ObsState) : ObsState :=
  let clarification := s.clarification.getD { status := "none" }
  let question := pyOr clarification.question DEFAULT_FOLLOWUP
  { agentStateUpdate s [Msg.ai question] (some "clarifier_agent") with
    planStepIndex := s.planStepIndex + 1
    clarification := some (s.clarification.getD { status := "pending" }) }

/-! ## `backend/observability_agent/agents/diagnostics_summary.py`

The narrative produced by `llm.invoke` on the formatted diagnostics
results is abstracted as the oracle `narrative`. -/

def DIAG_EMPTY_MESSAGE : String :=
  "The first diagnostic step (overall_change) had no data to compare, " ++
  "so additional steps were skipped.\n" ++
  "Please verify that calls exist in both the recent and baseline periods, then try again."

def diagnosticsSummaryAgentNode (narrative : String) (s : ObsState) : ObsState :=
  let ctx := s.diagnosticsContext.getD { results := [] }
  let results := ctx.results
  let firstRows : List Row := match results with
    | [] => []
    | r :: _ => r.rows
  if firstRows.isEmpty then
    { agentStateUpdate s [Msg.ai DIAG_EMPTY_MESSAGE] (some "diagnostics_summary_agent") with
      planStepIndex := s.planStepIndex + 1
      diagnosticsContext := some { ctx with results := results } }
  else
    { agentStateUpdate s [Msg.ai narrative] (some "diagnostics_summary_agent") with
      planStepIndex := s.planStepIndex + 1
      diagnosticsContext := some { ctx with results := results } }

/-! ## `src/observability_agent/agents/planner.py`

The structured planner call is the oracle `plannerLLM`: either
`(summary, steps)` or the text of the raised exception. -/

def lastHumanText (msgs : List Msg) : Option String :=
  (msgs.reverse.find? Msg.isHuman).map Msg.content

def PLANNER_CHART_KEYWORDS : List String :=
  ["chart", "graph", "visualize", "plot", "stacked", "line chart", "bar chart"]

/-- Embedding of `_default_plan`. -/
def defaultPlan (s : ObsState) : List PlanStep :=
  let needsChart :=
    match lastHumanText s.messages with
    | some t => PLANNER_CHART_KEYWORDS.any fun k => subSearch k.data (lowerL t.data)
    | none => false
  let step1 : PlanStep :=
    { stepNumber := some 1
      agent := some "metrics_agent"
      objective := some "Retrieve or compute the data needed to answer the user's request."
      inputContext := some (InputCtx.str
        "Read the latest user question, inspect the schema, and generate the necessary SQL.")
      successCriteria := some
        "SQL executes successfully and rows are available for follow-up steps." }
  let step2 : PlanStep :=
    { stepNumber := some 2
      agent := some "chart_agent"
      objective := some "Visualize the most recent metrics output as requested by the user."
      inputContext := some (InputCtx.str
        "Use the last rows/chart context produced by the metrics agent to build the chart.")
      successCriteria := some
        "Chart specification reflects the user's visualization requirements." }
  if needsChart then [step1, step2] else [step1]

def inputCtxText : Option InputCtx → String
  | some (.str t) => t
  | some ic => reprStr ic
  | none => ""

/-- Embedding of `_format_plan_text`. -/
def formatPlanText (summary : String) (steps : List PlanStep) : String :=
  let header := "**Planner Summary:** " ++ summary
  if steps.isEmpty then
    String.intercalate "\n"
      [header, "", "(Planner did not return any steps. Falling back to default metrics_agent.)"]
  else
    String.intercalate "\n"
      ([header, "", "**Execution Plan:**"] ++ steps.map fun st =>
        toString (st.stepNumber.getD 0) ++ ". [" ++ st.agent.getD "" ++ "] " ++
          st.objective.getD "" ++ "\n   - Input: " ++ inputCtxText st.inputContext ++
          "\n   - Success: " ++ st.successCriteria.getD "")

def plannerAgentNode (plannerLLM : Except String (String × List PlanStep))
    (s : ObsState) : ObsState :=
  let planSteps0 :=
    match plannerLLM with
    | .ok (_, steps) => steps
    | .error _ => defaultPlan s
  let planSteps := if planSteps0.isEmpty then defaultPlan s else planSteps0
  let planText :=
    match plannerLLM with
    | .ok (summary, steps) => formatPlanText summary steps
    | .error e =>
      "Planner encountered an error and is falling back to a default plan.\nError: " ++ e ++
        "\n\nDefault plan:\n" ++
        String.intercalate "\n" (planSteps0.map fun st =>
          toString (st.stepNumber.getD 0) ++ ". [" ++ st.agent.getD "" ++ "] " ++
            st.objective.getD "")
  -- the planner returns a raw dict (not `agent_state_update`); keys it does
  -- not set are preserved by the graph merge
  { s with
    messages := s.messages ++ [Msg.ai planText]
    activeAgent := "planner"
    lastRows := s.lastRows
    chartContext := some (s.chartContext.getD { rows := s.lastRows, metadata := [] })
    plan := planSteps
    planStepIndex := 0 }

/-! ## `backend/observability_agent/agents/chart.py`

The prepared-rows tool and the structured chart response only shape the
emitted message content, which is abstracted as the oracle
`specContent`. -/

def CHART_GUIDANCE_MESSAGE : String :=
  "I don't have any recent data rows to visualize. " ++
  "Please first ask me for some metrics or a table of rows, " ++
  "then I can turn that into a chart."

def chartAgentNode (specContent : String) (s : ObsState) : ObsState :=
  let planSteps := s.plan
  let planIndex := s.planStepIndex
  if s.lastRows.isEmpty then
    { agentStateUpdate s [Msg.ai CHART_GUIDANCE_MESSAGE] (some "chart_agent") with
      plan := planSteps
      planStepIndex := planIndex + 1 }
  else
    { agentStateUpdate s [Msg.ai specContent] (some "chart_agent") with
      plan := planSteps
      planStepIndex := planIndex + 1 }

/-! ## `src/observability_agent/agents/metrics.py`: the node

Oracles: `genInit` (the first structured SQL generation), `repair` (the
i-th repair generation), `exec` (the `run_sql` tool), `summaryText` (the
structured summarization call).  Prompt assembly (schema text, planner
hints, the diagnostics goal) only feeds those oracles and is not part of
the state transition. -/

structure SqlResp where
  sqlQuery : String
  reasoning : String := ""
deriving DecidableEq, Repr

/-- Embedding of `store_diagnostics_result`. -/
def storeDiagnosticsResult (s : ObsState) (stepName : String)
    (description : String) (rows : List Row) : DiagCtx :=
  let ctx := s.diagnosticsContext.getD {}
  { ctx with results := ctx.results ++ [⟨stepName, description, rows⟩] }

def metricsAgentNode (genInit : SqlResp) (repair : Nat → SqlResp)
    (exec : String → Except String ExecResult) (summaryText : String)
    (s : ObsState) : ObsState :=
  let planSteps := s.plan
  let planIndex := s.planStepIndex
  let plannerStep : Option PlanStep :=
    if ¬planSteps.isEmpty ∧ planIndex < planSteps.length then
      some (planSteps.getD planIndex {})
    else none
  let planMode := s.planMode
  let out := attemptSqlExecution exec (fun i => (repair i).sqlQuery) genInit.sqlQuery
  let finalResp := if out.repairs = 0 then genInit else repair (out.repairs - 1)
  let reasoning := pyOr (some finalResp.reasoning) "Model did not supply reasoning."
  let draft := Msg.ai ("**Reasoning:** " ++ reasoning ++ "\n\n```sql\n" ++ out.sql ++ "\n```")
  match out.result with
  | none =>
    let errMsg := Msg.ai
      ("I attempted multiple fixes but the database continues to reject the SQL:\n\n```sql\n" ++
        out.sql ++ "\n```\n\nError details: " ++ out.lastError.getD "Unknown SQL error" ++
        "\n\nPlease adjust the question or try a simpler aggregation.")
    { agentStateUpdate s [draft, errMsg] (some "metrics_agent") with
      plan := planSteps
      planStepIndex := planIndex + 1 }
  | some res =>
    let rowDicts : List Row := res.rows.map fun row => res.columns.zip row
    let chartCtx : ChartCtx := { rows := rowDicts, metadata := [], rawRows := some rowDicts }
    let updatedDiag : Option DiagCtx :=
      match plannerStep with
      | some st =>
        if planMode = "diagnostics" then
          let stepName := pyOr st.name ("step_" ++ toString (planIndex + 1))
          some (storeDiagnosticsResult s stepName (st.objective.getD "") rowDicts)
        else none
      | none => none
    let summaryMsg := Msg.ai summaryText
    let nextStepIndex :=
      if planMode = "diagnostics" ∧
          (plannerStep.any fun st => st.name == some "overall_change") = true ∧
          rowDicts.isEmpty then
        max (planSteps.length - 1) (planIndex + 1)
      else planIndex + 1
    { agentStateUpdate s [draft, summaryMsg] (some "metrics_agent") with
      lastRows := rowDicts
      chartContext := some chartCtx
      plan := planSteps
      planStepIndex := nextStepIndex
      diagnosticsContext := some (updatedDiag.getD (s.diagnosticsContext.getD {})) }

/-! ## `backend/observability_agent/utils/diagnostics.py` -/

def DEFAULT_DIAGNOSTIC_WINDOW_HOURS : Nat := 24

def CAUSE_SIGNALS : List String :=
  ["why", "reason", "cause", "diagnostic", "root cause", "increase", "spike",
   "sudden", "느려", "원인", "이유", "갑자기", "불안정"]

def METRIC_SIGNALS : List String :=
  ["latency", "response time", "지연", "tokens", "token", "토큰", "비용", "cost"]

def LATENCY_KEYWORDS : List String :=
  ["latency", "지연", "느려", "delay", "응답속도"]

def TOKEN_KEYWORDS : List String :=
  ["token", "tokens", "토큰", "비용", "cost", "usage"]

/-- Embedding of `is_diagnostics_intent`. -/
def isDiagnosticsIntent (text : String) : Bool :=
  if text = "" then false
  else
    let lowered := lowerL text.data
    (CAUSE_SIGNALS.any fun sig => subSearch sig.data lowered) &&
    (METRIC_SIGNALS.any fun sig => subSearch sig.data lowered)

/-- Embedding of `infer_target_metric`. -/
def inferTargetMetric (text : String) : String :=
  let lowered := lowerL text.data
  let hasLatency := LATENCY_KEYWORDS.any fun k => subSearch k.data lowered
  let hasTokens := TOKEN_KEYWORDS.any fun k => subSearch k.data lowered
  if hasLatency && hasTokens then "both"
  else if hasTokens then "tokens"
  else "latency"

/-- Numeric value of a digit run. -/
def digitsValue (l : List Char) : Nat :=
  l.foldl (fun a c => a * 10 + (c.toNat - 48)) 0

/-- Leftmost-match scan driver returning the first position's result. -/
def scanOpt (f : List Char → Option α) : List Char → Option α
  | [] => none
  | c :: rest =>
    match f (c :: rest) with
    | some v => some v
    | none => scanOpt f rest

/-- Matcher for `(\d+)\s*(UNIT1|UNIT2...)` at the current position with
`re.IGNORECASE`: the greedy digit run is maximal (a shorter run leaves a
digit where the unit must start, so backtracking it can never succeed),
`\s*` sits before a non-whitespace unit.  `unitAlts` are the alternation
branches in order; a branch that is a prefix of a later one shadows it,
exactly as in the `re` alternation. -/
def numUnitAt (unitAlts : List (List Char)) (l : List Char) : Option Nat :=
  match l with
  | c :: _ =>
    if isDigitP c then
      let ds := l.takeWhile isDigitP
      let rest := (l.drop ds.length).dropWhile isSpaceP
      if unitAlts.any fun u => ciStarts (lowerL u) rest then some (digitsValue ds)
      else none
    else none
  | [] => none

/-- Embedding of `extract_window_hours_from_text`. -/
def extractWindowHours (text : String) : Option Nat :=
  if text = "" then none
  else
    match scanOpt (numUnitAt ["시간".data, "hour".data]) text.data with
    | some v => some v
    | none =>
      match scanOpt (numUnitAt ["일".data, "day".data]) text.data with
      | some v => some (v * 24)
      | none => none

/-! ## `backend/observability_agent/agents/router.py`

The structured routing call is the oracle `routeLLM`: the chosen agent
name, or the text of the raised exception. -/

def DISALLOWED_KEYWORDS : List String :=
  ["delete", "drop", "destroy", "truncate", "wipe", "shutdown", "disable", "attack"]

def ANALYTICS_KEYWORDS : List String :=
  ["latency", "delay", "token", "metric", "data", "run", "agent", "tool",
   "chart", "graph", "observability"]

def ROUTER_CHART_KEYWORDS : List String :=
  ["chart", "graph", "plot", "visualize", "bar chart", "line chart",
   "pie chart", "visualization"]

def isDisallowedRequest (text : String) : Bool :=
  DISALLOWED_KEYWORDS.any fun k => subSearch k.data (lowerL text.data)

def isAnalyticsRequest (text : String) : Bool :=
  ANALYTICS_KEYWORDS.any fun k => subSearch k.data (lowerL text.data)

/-- Embedding of `_enter_diagnostics_mode`: mutates the state in place when the text
carries diagnostics intent; returns the (possibly updated) state and
whether the mode was entered. -/
def enterDiagnosticsMode (s : ObsState) (text : String) : ObsState × Bool :=
  if !isDiagnosticsIntent text then (s, false)
  else
    let windowHours := (extractWindowHours text).getD DEFAULT_DIAGNOSTIC_WINDOW_HOURS
    let targetMetric := inferTargetMetric text
    ({ s with
        planMode := "diagnostics"
        diagnosticsContext := some
          { targetMetric := some targetMetric
            baselineWindowHours := some windowHours
            recentWindowHours := some windowHours
            results := [] } },
      true)

/-- Embedding of `_route_default_flow`. -/
def routeDefaultFlow (routeLLM : Except String String) (s : ObsState)
    (userText : String) : String :=
  let text := lowerL userText.data
  let hasData := !s.lastRows.isEmpty
  let matchedChartKeyword := ROUTER_CHART_KEYWORDS.any fun kw => subSearch kw.data text
  if matchedChartKeyword then
    if hasData then "chart_agent" else "planner"
  else
    match routeLLM with
    | .ok agent => agent
    | .error _ => "metrics_agent"

/-- Embedding of `route_from_user_message`: returns the chosen agent, an optional
refusal message, and the state (which `_enter_diagnostics_mode` may have
updated in place). -/
def routeFromUserMessage (routeLLM : Except String String) (s : ObsState) :
    String × Option Msg × ObsState :=
  match lastHumanText s.messages with
  | none => ("metrics_agent", none, s)
  | some userText =>
    if userText = "" then ("metrics_agent", none, s)
    else if isDisallowedRequest userText then
      ("complete", some (Msg.ai REFUSAL_MESSAGE), s)
    else if !isAnalyticsRequest userText then
      ("complete", some (Msg.ai REFUSAL_MESSAGE), s)
    else
      match enterDiagnosticsMode s userText with
      | (s2, true) => ("planner", none, s2)
      | (s2, false) => (routeDefaultFlow routeLLM s2 userText, none, s2)

/-- Embedding of `router_agent_node`. -/
def routerAgentNode (routeLLM : Except String String) (s : ObsState) : ObsState :=
  if s.hasError then
    { agentStateUpdate s [] (some "complete") with
      plan := []
      planStepIndex := 0
      planMode := "default" }
  else
    let planSteps := s.plan
    let stepIndex := s.planStepIndex
    if ¬planSteps.isEmpty ∧ stepIndex < planSteps.length then
      let step := planSteps.getD stepIndex {}
      let agentName := step.agent.getD "metrics_agent"
      { agentStateUpdate s [] (some agentName) with
        plan := planSteps
        planStepIndex := stepIndex }
    else if ¬planSteps.isEmpty ∧ planSteps.length ≤ stepIndex then
      { agentStateUpdate s [] (some "complete") with
        plan := []
        planStepIndex := 0
        planMode := "default" }
    else if planSteps.isEmpty ∧ 0 < stepIndex then
      { agentStateUpdate s [] (some "complete") with
        plan := []
        planStepIndex := 0
        planMode := "default" }
    else
      match routeFromUserMessage routeLLM s with
      | (agentName, refusalMessage, s2) =>
        { agentStateUpdate s2
            (match refusalMessage with | some m => [m] | none => []) (some agentName) with
          plan := s2.plan
          planStepIndex := s2.planStepIndex }

/-! ## `backend/observability_agent/core/graph.py`: `route_from_state` -/

def VALID_DISPATCH_AGENTS : List String :=
  ["metrics_agent", "chart_agent", "diagnostics_summary_agent"]

/-- The conditional-edge function the compiled graph runs on the router's
output to pick the next node (`"complete"` maps to `END`). -/
def routeFromState (s : ObsState) : String :=
  let plan := s.plan
  let idx := s.planStepIndex
  if ¬plan.isEmpty ∧ idx < plan.length then
    let agent := (plan.getD idx {}).agent.getD "metrics_agent"
    if VALID_DISPATCH_AGENTS.contains agent then agent else "metrics_agent"
  else if ¬plan.isEmpty ∧ plan.length ≤ idx then "complete"
  else if plan.isEmpty ∧ 0 < idx then "complete"
  else
    let agent := if s.activeAgent = "" then "planner" else s.activeAgent
    if agent = "planner" then "planner"
    else if VALID_DISPATCH_AGENTS.contains agent then agent
    else "complete"

/-! ## `backend/observability_agent/utils/runner.py`: turn initialization -/

/-- The state `run_obs_agent` hands to the graph: a fresh conversation, or
the previous turn's final state with the new user message appended, the
plan machinery reset and the fatal-error flag cleared. -/
def initTurnState (userMessage : String) (prevState : Option ObsState) : ObsState :=
  match prevState with
  | none =>
    { messages := [Msg.human userMessage]
      activeAgent := "router"
      lastRows := []
      plan := []
      planStepIndex := 0
      planMode := "default"
      diagnosticsContext := some { results := [] }
      hasError := false }
  | some prev =>
    { messages := prev.messages ++ [Msg.human userMessage]
      activeAgent := prev.activeAgent
      lastRows := prev.lastRows
      plan := []
      planStepIndex := 0
      planMode := prev.planMode
      diagnosticsContext := some (prev.diagnosticsContext.getD { results := [] })
      hasError := false }

/-- Is there any position where the case-insensitive literal `pat`
matches?  (`re.search("(?i)" + pat, l)` for a literal `pat`.) -/
def ciFind (pat : List Char) : List Char → Bool
  | [] => false
  | c :: rest => ciStarts pat (c :: rest) || ciFind pat rest

/-- Is there any position where the DISTINCT-delimiter pattern matches? -/
def gcFind : List Char → Bool
  | [] => false
  | c :: rest => (gcMatchAt (c :: rest)).isSome || gcFind rest

/-- Modelled from the spec: the spec's static-validation contract speaks
of rejecting "any non-SELECT statement"; the code has no such notion, so
for the refinement comparison a SELECT statement is one whose first
non-whitespace token is `SELECT` (case-insensitive). -/
def isSelectStatementSpec (sql : String) : Bool :=
  ciStarts "select".data (sql.data.dropWhile isSpaceP)

/-- The node the graph actually dispatches a plan step to: the step's
`agent` field when it names a known task node, `metrics_agent` otherwise
(`route_from_state`). -/
def stepDispatchTarget (st : PlanStep) : String :=
  let agent := st.agent.getD "metrics_agent"
  if VALID_DISPATCH_AGENTS.contains agent then agent else "metrics_agent"

/-- The plan-cursor invariant that the implementation actually maintains:
the cursor stays within the plan while a plan exists; once the plan is
empty the cursor only marks completed non-plan work. -/
def PlanCursorInv (s : ObsState) : Prop :=
  s.plan = [] ∨ s.planStepIndex ≤ s.plan.length

/-- The only situations in which the router hands control to a task
agent: fresh classification (no plan, cursor 0) or an in-bounds plan
step. -/
def DispatchPre (s : ObsState) : Prop :=
  (s.plan = [] ∧ s.planStepIndex = 0) ∨ s.planStepIndex < s.plan.length

/-- First diagnostics result's rows (`results[0].get("rows") if results
else []`). -/
def diagFirstRows (s : ObsState) : List Row :=
  match (s.diagnosticsContext.getD { results := [] }).results with
  | [] => []
  | r :: _ => r.rows

/-- A turn-initial state carrying a pending clarification, as left behind
by a clarifier exchange in a previous turn. -/
def pendingClarState : ObsState :=
  { messages := [Msg.human "show me the latency data"]
    activeAgent := "clarifier_agent"
    lastRows := []
    chartContext := none
    plan := []
    planStepIndex := 0
    planMode := "default"
    clarification := some { status := "pending", question := some "Which table?" }
    diagnosticsContext := some { results := [] }
    hasError := false }

/-! ## Generic lemmas about the scanners -/

/-! Length facts about the DISTINCT-delimiter matcher: every successful
match consumes at least one character of the text, which is what makes
the step budget `l.length` of `gcStripF` sufficient. -/

theorem len_dropWhile_le (p : Char → Bool) (l : List Char) :
    (l.dropWhile p).length ≤ l.length := by
  induction l with
  | nil => simp [List.dropWhile]
  | cons c rest ih =>
    by_cases h : p c
    · simp [List.dropWhile, h]; omega
    · simp [List.dropWhile, h]

theorem dropToRparen_len {l r : List Char} (h : dropToRparen l = some r) :
    r.length < l.length := by
  induction l with
  | nil => simp [dropToRparen] at h
  | cons c rest ih =>
    by_cases hc : c = ')'
    · simp [dropToRparen, hc] at h
      simp [← h]
    · simp [dropToRparen, hc] at h
      have := ih h
      simp; omega

theorem gcTailMatch_len {l r : List Char} (h : gcTailMatch l = some r) :
    r.length < l.length := by
  cases l with
  | nil => simp [gcTailMatch] at h
  | cons c rest =>
    by_cases hc : c = ')'
    · simp [gcTailMatch, hc] at h
    · simp [gcTailMatch, hc] at h
      have := dropToRparen_len h
      simp; omega

theorem gcColMatch_len {l : List Char} :
    ∀ {acc col rem}, gcColMatch acc l = some (col, rem) → rem.length < l.length := by
  induction l with
  | nil => intro acc col rem h; simp [gcColMatch] at h
  | cons c rest ih =>
    intro acc col rem h
    by_cases hc : c = ')'
    · simp [gcColMatch, hc] at h
    · by_cases hcomma : (c = ',' && !acc.isEmpty) = true
      · simp only [gcColMatch, if_neg hc, if_pos hcomma] at h
        cases htail : gcTailMatch rest with
        | some rem2 =>
          rw [htail] at h
          simp at h
          have := gcTailMatch_len htail
          simp [← h.2]; omega
        | none =>
          rw [htail] at h
          have := ih h
          simp; omega
      · simp only [gcColMatch, if_neg hc, if_neg hcomma] at h
        have := ih h
        simp; omega

theorem gcWsTries_len {l : List Char} :
    ∀ {j col rem}, gcWsTries l j = some (col, rem) → rem.length < l.length := by
  intro j
  induction j with
  | zero => intro col rem h; simp [gcWsTries] at h
  | succ j ih =>
    intro col rem h
    simp only [gcWsTries] at h
    cases hcol : gcColMatch [] (l.drop (j + 1)) with
    | some r =>
      rw [hcol] at h
      simp at h
      subst h
      have h1 := gcColMatch_len hcol
      have h2 : (l.drop (j + 1)).length ≤ l.length - 1 := by
        simp [List.length_drop]; omega
      -- the matched text is non-empty, so `l` itself is non-empty
      have h3 : 0 < (l.drop (j + 1)).length := by
        cases hd : l.drop (j + 1) with
        | nil => rw [hd] at hcol; simp [gcColMatch] at hcol
        | cons a b => simp [hd]
      omega
    | none =>
      rw [hcol] at h
      exact ih h

theorem ciDrop_len {pat l r : List Char} (h : ciDrop pat l = some r) :
    r.length ≤ l.length := by
  unfold ciDrop at h
  split at h
  · simp at h; subst h; simp [List.length_drop]
  · simp at h

theorem gcMatchAt_len {l col rem : List Char} (h : gcMatchAt l = some (col, rem)) :
    rem.length < l.length := by
  unfold gcMatchAt at h
  split at h
  · exact absurd h (by simp)
  next r1 h1 =>
    split at h
    next r3 h2 =>
      split at h
      next r5 h3 =>
        simp only [gcAfterDistinct] at h
        have h4 := gcWsTries_len h
        have h5 : r5.length ≤ (r3.dropWhile isSpaceP).length := ciDrop_len h3
        have h6 : (r3.dropWhile isSpaceP).length ≤ r3.length :=
          len_dropWhile_le _ _
        have h7 : r3.length < (r1.dropWhile isSpaceP).length := by
          rw [h2]; simp
        have h8 : (r1.dropWhile isSpaceP).length ≤ r1.length :=
          len_dropWhile_le _ _
        have h9 : r1.length ≤ l.length := ciDrop_len h1
        omega
      next h3 => exact absurd h (by simp)
    next h2 => exact absurd h (by simp)

/-- If the keyword occurs in `t` whatever character precedes the scan,
it occurs in any extension `l ++ t`. -/
theorem kwSearch_append_right {pat t : List Char}
    (h : ∀ p, kwSearch pat p t = true) :
    ∀ (l : List Char) (p : Option Char), kwSearch pat p (l ++ t) = true := by
  intro l
  induction l with
  | nil => intro p; exact h p
  | cons c rest ih =>
    intro p
    simp only [List.cons_append, kwSearch, List.append_eq]
    rw [ih (some c)]
    simp

/-- The keyword `LIMIT` is found in the appended tail `" LIMIT 100"` no matter
what precedes it. -/
theorem limit_tail_found (p : Option Char) :
    kwSearch "limit".data p (" LIMIT 100").data = true := by
  have hdata : (" LIMIT 100").data = ' ' :: ("LIMIT 100").data := rfl
  rw [hdata]
  simp only [kwSearch]
  have hci : ciStarts "limit".data (' ' :: ("LIMIT 100").data) = false := by decide
  rw [hci]
  simp only [Bool.and_false, Bool.false_and, Bool.false_or]
  decide

theorem append_limit_has_kw (x : List Char) :
    hasLimitKw (x ++ (" LIMIT " ++ toString (100 : Nat)).data) = true := by
  have h : (" LIMIT " ++ toString (100 : Nat)).data = (" LIMIT 100" : String).data := by
    decide
  rw [h]
  exact kwSearch_append_right limit_tail_found x none

/-- C4 (counterexample): for `"SELECT 1;"` the executed statement is not
the original with `" LIMIT 100"` appended — `_ensure_limit` first strips
the trailing semicolon (`sql.rstrip(";").strip()`). -/
theorem ensure_limit_cex :
    executedStatement "SELECT 1;" ≠ "SELECT 1;" ++ " LIMIT 100" ∧
    hasLimitKw ("SELECT 1;" : String).data = false ∧
    executedStatement "SELECT 1;" = "SELECT 1 LIMIT 100" := by
  refine ⟨by decide, by decide, by decide⟩

/-- C4 (amended): a query with no `LIMIT` keyword is executed as the
original stripped of trailing semicolons and surrounding whitespace with
`" LIMIT 100"` appended; a query that already contains a `LIMIT` keyword
is executed unchanged; and limit-injection is idempotent. -/
theorem ensure_limit_spec (sql : String) :
    (hasLimitKw sql.data = false →
      executedStatement sql =
        String.mk (stripWs (rstripSemis sql.data) ++ (" LIMIT " ++ toString (100 : Nat)).data)) ∧
    (hasLimitKw sql.data = true → executedStatement sql = sql) ∧
    executedStatement (executedStatement sql) = executedStatement sql := by
  refine ⟨?_, ?_, ?_⟩
  · intro h
    simp [executedStatement, ensureLimit, ensureLimitL, h]
  · intro h
    simp [executedStatement, ensureLimit, ensureLimitL, h]
  · by_cases h : hasLimitKw sql.data = true
    · simp [executedStatement, ensureLimit, ensureLimitL, h]
    · have h2 : ensureLimitL 100 sql.data =
          stripWs (rstripSemis sql.data) ++ (" LIMIT " ++ toString (100 : Nat)).data := by
        unfold ensureLimitL
        rw [if_neg h]
      show (⟨ensureLimitL 100 (ensureLimitL 100 sql.data)⟩ : String) =
        ⟨ensureLimitL 100 sql.data⟩
      congr 1
      conv_lhs => rw [h2]
      unfold ensureLimitL
      rw [if_pos (append_limit_has_kw _), if_neg h]

/-- C4 (witness): the amended characterization evaluated on concrete
queries through the theorem itself. -/
theorem ensure_limit_spec_witness :
    executedStatement "SELECT 1" =
      String.mk (stripWs (rstripSemis ("SELECT 1" : String).data) ++
        (" LIMIT " ++ toString (100 : Nat)).data) ∧
    executedStatement "SELECT * FROM t LIMIT 5" = "SELECT * FROM t LIMIT 5" :=
  ⟨(ensure_limit_spec "SELECT 1").1 (by decide),
   (ensure_limit_spec "SELECT * FROM t LIMIT 5").2.1 (by decide)⟩

/-! ## Lemmas about `_normalize_sql` and the repair loop -/

/-- A literal substitution pass with no match site is the identity,
whatever the step budget. -/
theorem subLitF_id {pat repl : List Char} :
    ∀ (f : Nat) {l : List Char}, ciFind pat l = false →
      subLitF pat repl f l = l := by
  intro f
  induction f with
  | zero => intro l _; cases l <;> simp [subLitF]
  | succ f ih =>
    intro l h
    cases l with
    | nil => simp [subLitF]
    | cons c rest =>
      simp only [ciFind, Bool.or_eq_false_iff] at h
      rw [subLitF, if_neg (by simp [h.1])]
      rw [ih h.2]

theorem subLit_id {pat repl l : List Char} (h : ciFind pat l = false) :
    subLit pat repl l = l :=
  subLitF_id l.length h

/-- A delimiter-strip pass with no match site is the identity, whatever
the step budget. -/
theorem gcStripF_id :
    ∀ (f : Nat) {l : List Char}, gcFind l = false → gcStripF f l = l := by
  intro f
  induction f with
  | zero => intro l _; cases l <;> simp [gcStripF]
  | succ f ih =>
    intro l h
    cases l with
    | nil => simp [gcStripF]
    | cons c rest =>
      simp only [gcFind, Bool.or_eq_false_iff] at h
      have hnone : gcMatchAt (c :: rest) = none := by
        cases hm : gcMatchAt (c :: rest) with
        | none => rfl
        | some v => rw [hm] at h; simp at h
      rw [gcStripF, hnone]
      rw [ih h.2]

theorem gcStrip_id {l : List Char} (h : gcFind l = false) : gcStrip l = l :=
  gcStripF_id l.length h

/-- A query with no `STRING_AGG` occurrence and no delimiter-pattern
occurrence is left unchanged by `_normalize_sql`. -/
theorem normalizeSql_id {sql : String}
    (h1 : ciFind "string_agg".data sql.data = false)
    (h2 : gcFind sql.data = false) :
    normalizeSql sql = sql := by
  show (⟨normalizeSqlL sql.data⟩ : String) = sql
  rw [normalizeSqlL, subLit_id h1, gcStrip_id h2]

/-- Trace facts about the repair loop: each iteration validates exactly
the normalization of its candidate SQL, and only queries that validated
cleanly are handed to the execution capability. -/
theorem attemptGo_trace (exec : String → Except String ExecResult)
    (repair : Nat → String) :
    ∀ (n : Nat) (sql : String) (r : Nat),
      (attemptGo exec repair n sql r).validated =
        ((attemptGo exec repair n sql r).candidates).map normalizeSql ∧
      (∀ q ∈ (attemptGo exec repair n sql r).executed, validateSql q = []) := by
  intro n
  induction n with
  | zero => intro sql r; simp [attemptGo]
  | succ n ih =>
    intro sql r
    simp only [attemptGo]
    by_cases hv : (validateSql (normalizeSql sql)).isEmpty
    · have hvnil : validateSql (normalizeSql sql) = [] := by
        simpa [List.isEmpty_iff] using hv
      cases hexec : exec (normalizeSql sql) with
      | ok res => simp [hv, hexec, hvnil]
      | error e =>
        by_cases hn : n = 0
        · simp [hv, hexec, hn, hvnil]
        · simp only [hv, if_true, hexec, if_neg hn]
          have := ih (repair r) (r + 1)
          simp only [List.map_cons, List.mem_cons]
          constructor
          · simp [this.1]
          · intro q hq
            rcases hq with hq | hq
            · subst hq; exact hvnil
            · exact this.2 q hq
    · have hv2 : ¬(validateSql (normalizeSql sql) = []) := by
        simpa [List.isEmpty_iff] using hv
      by_cases hn : n = 0
      · simp [hv, hv2, hn]
      · rw [if_neg hv, if_neg hn]
        have := ih (repair r) (r + 1)
        constructor
        · simp [this.1]
        · exact this.2

/-- Bound and outcome dichotomy for the repair loop, by induction on the
remaining attempts (`m` remaining, `r` repair invocations so far): at most
`m - 1` further repair invocations happen, and — whenever at least one
attempt remains — the loop ends in a successful result with no pending
error, or with no result and the last error recorded. -/
theorem attemptGo_bound (exec : String → Except String ExecResult)
    (repair : Nat → String) :
    ∀ (m : Nat) (sql : String) (r : Nat),
      (attemptGo exec repair m sql r).repairs ≤ r + (m - 1) ∧
      (m = 0 ∨
        ((∃ res, (attemptGo exec repair m sql r).result = some res ∧
            (attemptGo exec repair m sql r).lastError = none) ∨
          ((attemptGo exec repair m sql r).result = none ∧
            ∃ e, (attemptGo exec repair m sql r).lastError = some e))) := by
  intro m
  induction m with
  | zero => intro sql r; simp [attemptGo]
  | succ k ih =>
    intro sql r
    simp only [attemptGo]
    by_cases hv : (validateSql (normalizeSql sql)).isEmpty
    · cases hexec : exec (normalizeSql sql) with
      | ok res => simp [hv, hexec]
      | error e =>
        by_cases hk : k = 0
        · simp [hv, hexec, hk]
        · rw [if_pos hv]
          simp only [hexec, if_neg hk]
          have := ih (repair r) (r + 1)
          refine ⟨by have h1 := this.1; omega, Or.inr ?_⟩
          rcases this.2 with h0 | hd
          · exact absurd h0 hk
          · simpa using hd
    · by_cases hk : k = 0
      · simp [hv, hk]
      · rw [if_neg hv, if_neg hk]
        have := ih (repair r) (r + 1)
        refine ⟨by have h1 := this.1; (try dsimp only); omega, Or.inr ?_⟩
        rcases this.2 with h0 | hd
        · exact absurd h0 hk
        · simpa using hd

/-! ## Claim theorems: the SQL pipeline -/

/-- C1: per metrics step the generation capability is invoked at most
`MAX_SQL_ATTEMPTS = 3` times in total — the one initial generation that
produces `initSql` plus the loop's repair re-invocations — and the loop
(total by construction) ends either in a successful execution result with
no pending error, or exhausted with the last error recorded. -/
theorem attempt_loop_bound_spec :
    ∀ (exec : String → Except String ExecResult) (repair : Nat → String)
      (initSql : String),
      (attemptSqlExecution exec repair initSql).repairs + 1 ≤ MAX_SQL_ATTEMPTS ∧
      ((∃ res, (attemptSqlExecution exec repair initSql).result = some res ∧
          (attemptSqlExecution exec repair initSql).lastError = none) ∨
        ((attemptSqlExecution exec repair initSql).result = none ∧
          ∃ e, (attemptSqlExecution exec repair initSql).lastError = some e)) := by
  intro exec repair initSql
  have h := attemptGo_bound exec repair MAX_SQL_ATTEMPTS initSql 0
  refine ⟨?_, ?_⟩
  · have h1 := h.1
    simp only [MAX_SQL_ATTEMPTS] at h1 ⊢
    simpa [attemptSqlExecution, MAX_SQL_ATTEMPTS] using by omega
  · rcases h.2 with h0 | hd
    · exact absurd h0 (by simp [MAX_SQL_ATTEMPTS])
    · simpa [attemptSqlExecution] using hd

/-- C5 (counterexample): `_normalize_sql` is not idempotent, and a single
pass need not remove every case-insensitive `STRING_AGG` occurrence: on
`"string_agstring_agg"` the replacement text concatenates with the
leftover `"string_ag"` into a fresh occurrence, which a second pass then
rewrites again. -/
theorem normalize_sql_not_idem :
    normalizeSql (normalizeSql "string_agstring_agg") ≠
      normalizeSql "string_agstring_agg" ∧
    subSearch "string_agg".data
      (lowerL (normalizeSql "string_agstring_agg").data) = true := by
  refine ⟨by decide, by decide⟩

/-- C5 (amended): in every loop iteration the validated query is exactly
the normalization of that iteration's candidate SQL (normalize-before-
validate); and normalization is a no-op — hence idempotent — on queries
with no `STRING_AGG` occurrence and no delimiter-pattern occurrence,
though not on all queries. -/
theorem normalize_sql_spec :
    (∀ (exec : String → Except String ExecResult) (repair : Nat → String)
        (initSql : String),
      (attemptSqlExecution exec repair initSql).validated =
        ((attemptSqlExecution exec repair initSql).candidates).map normalizeSql) ∧
    (∀ sql : String, ciFind "string_agg".data sql.data = false →
      gcFind sql.data = false → normalizeSql sql = sql) ∧
    (∀ sql : String, ciFind "string_agg".data (normalizeSql sql).data = false →
      gcFind (normalizeSql sql).data = false →
      normalizeSql (normalizeSql sql) = normalizeSql sql) := by
  refine ⟨?_, ?_, ?_⟩
  · intro exec repair initSql
    exact (attemptGo_trace exec repair MAX_SQL_ATTEMPTS initSql 0).1
  · intro sql h1 h2
    exact normalizeSql_id h1 h2
  · intro sql h1 h2
    exact normalizeSql_id h1 h2

/-- C5 (witness): the conditional idempotence applied to a concrete
already-normalized query. -/
theorem normalize_sql_spec_witness :
    normalizeSql (normalizeSql "SELECT GROUP_CONCAT(tool_name) FROM call_tool") =
      normalizeSql "SELECT GROUP_CONCAT(tool_name) FROM call_tool" :=
  normalize_sql_spec.2.2 "SELECT GROUP_CONCAT(tool_name) FROM call_tool"
    (by decide) (by decide)

/-- C6 (counterexample): static validation does not reject every
non-SELECT statement — an `EXPLAIN` statement over a known table passes
every check. -/
theorem validate_sql_non_select_cex :
    validateSql "EXPLAIN SELECT * FROM agent_runs" = [] ∧
    isSelectStatementSpec "EXPLAIN SELECT * FROM agent_runs" = false := by
  refine ⟨by decide, by decide⟩

/-- C6 (amended): validation reports at least one issue for every query
that does not match the table-reference pattern over the four known
tables, every query with a `VALUES (` clause, every query with a
`UNION ALL SELECT '` literal union, every query containing a forbidden
DML keyword (`insert|update|delete|drop|create|replace` — the code's
approximation of "non-SELECT"), and every query using `STRING_AGG`; and
the repair loop hands only issue-free statements to the SQL-execution
capability. -/
theorem validate_sql_spec :
    (∀ sql : String, referencesAllowedTable (lowerL sql.data) = false →
      validateSql sql ≠ []) ∧
    (∀ sql : String, hasValuesClause (lowerL sql.data) = true →
      validateSql sql ≠ []) ∧
    (∀ sql : String, hasLiteralUnion (lowerL sql.data) = true →
      validateSql sql ≠ []) ∧
    (∀ sql : String, hasForbiddenDml (lowerL sql.data) = true →
      validateSql sql ≠ []) ∧
    (∀ sql : String, hasStringAggWord (lowerL sql.data) = true →
      validateSql sql ≠ []) ∧
    (∀ (exec : String → Except String ExecResult) (repair : Nat → String)
        (initSql : String) (q : String),
      q ∈ (attemptSqlExecution exec repair initSql).executed →
      validateSql q = []) := by
  refine ⟨?_, ?_, ?_, ?_, ?_, ?_⟩
  · intro sql h hEq
    rw [validateSql] at hEq
    simp [h, List.append_eq_nil] at hEq
  · intro sql h hEq
    rw [validateSql] at hEq
    simp [h, List.append_eq_nil] at hEq
  · intro sql h hEq
    rw [validateSql] at hEq
    simp [h, List.append_eq_nil] at hEq
  · intro sql h hEq
    rw [validateSql] at hEq
    simp [h, List.append_eq_nil] at hEq
  · intro sql h hEq
    rw [validateSql] at hEq
    simp [h, List.append_eq_nil] at hEq
  · intro exec repair initSql q hq
    exact (attemptGo_trace exec repair MAX_SQL_ATTEMPTS initSql 0).2 q hq

/-- C6 (witness): the DML rejection applied to a concrete destructive
statement. -/
theorem validate_sql_spec_witness :
    validateSql "DROP TABLE agent_runs" ≠ [] :=
  validate_sql_spec.2.2.2.1 "DROP TABLE agent_runs" (by decide)

/-! ## Claim theorems: router, refusal, diagnostics summary, runner -/

/-- Classification (`route_from_user_message`) only ever updates
`plan_mode` and `diagnostics_context` (via `_enter_diagnostics_mode`);
every other state field is untouched. -/
theorem routeFromUserMessage_frame (routeLLM : Except String String)
    (s : ObsState) :
    (routeFromUserMessage routeLLM s).2.2.messages = s.messages ∧
    (routeFromUserMessage routeLLM s).2.2.plan = s.plan ∧
    (routeFromUserMessage routeLLM s).2.2.planStepIndex = s.planStepIndex ∧
    (routeFromUserMessage routeLLM s).2.2.hasError = s.hasError ∧
    (routeFromUserMessage routeLLM s).2.2.activeAgent = s.activeAgent ∧
    (routeFromUserMessage routeLLM s).2.2.lastRows = s.lastRows ∧
    (routeFromUserMessage routeLLM s).2.2.clarification = s.clarification ∧
    (routeFromUserMessage routeLLM s).2.2.chartContext = s.chartContext := by
  unfold routeFromUserMessage enterDiagnosticsMode
  cases lastHumanText s.messages with
  | none => simp
  | some t =>
    dsimp only
    split_ifs <;> simp

/-- C2: the router's decision rules apply in strict precedence order.
With `has_error` set it emits no messages, reports the terminal sentinel
and clears the plan (and the subsequent edge selection terminates);
otherwise an in-bounds plan step is dispatched to the step's agent,
falling back to the metrics agent for unrecognized (or missing) agent
fields; otherwise an exhausted plan — or an empty plan with a positive
cursor — terminates; and only otherwise is the latest user message
classified (`route_from_user_message`), whose chosen agent and optional
refusal message form the router's delta. -/
theorem router_decision_spec (routeLLM : Except String String) (s : ObsState) :
    (s.hasError = true →
      (routerAgentNode routeLLM s).messages = s.messages ∧
      (routerAgentNode routeLLM s).activeAgent = "complete" ∧
      (routerAgentNode routeLLM s).plan = [] ∧
      routeFromState (routerAgentNode routeLLM s) = "complete") ∧
    (s.hasError = false → s.plan ≠ [] → s.planStepIndex < s.plan.length →
      (routerAgentNode routeLLM s).messages = s.messages ∧
      (routerAgentNode routeLLM s).plan = s.plan ∧
      (routerAgentNode routeLLM s).planStepIndex = s.planStepIndex ∧
      routeFromState (routerAgentNode routeLLM s) =
        stepDispatchTarget (s.plan.getD s.planStepIndex {})) ∧
    (s.hasError = false → s.plan ≠ [] → s.plan.length ≤ s.planStepIndex →
      (routerAgentNode routeLLM s).messages = s.messages ∧
      routeFromState (routerAgentNode routeLLM s) = "complete") ∧
    (s.hasError = false → s.plan = [] → 0 < s.planStepIndex →
      (routerAgentNode routeLLM s).messages = s.messages ∧
      routeFromState (routerAgentNode routeLLM s) = "complete") ∧
    (s.hasError = false → s.plan = [] → s.planStepIndex = 0 →
      (routeFromUserMessage routeLLM s).1 ≠ "" →
      (routerAgentNode routeLLM s).activeAgent =
        (routeFromUserMessage routeLLM s).1 ∧
      (routerAgentNode routeLLM s).messages =
        s.messages ++
          (match (routeFromUserMessage routeLLM s).2.1 with
           | some m => [m]
           | none => [])) := by
  refine ⟨?_, ?_, ?_, ?_, ?_⟩
  · intro hE
    simp [routerAgentNode, hE, agentStateUpdate, pyOr, routeFromState,
      VALID_DISPATCH_AGENTS]
  · intro hE hp hlt
    have hne : ¬(s.plan.isEmpty = true) := by simpa [List.isEmpty_iff] using hp
    unfold routerAgentNode
    rw [if_neg (by simp [hE]), if_pos ⟨hne, hlt⟩]
    refine ⟨by simp [agentStateUpdate], by simp [agentStateUpdate],
      by simp [agentStateUpdate], ?_⟩
    unfold routeFromState
    rw [if_pos ⟨by simpa [agentStateUpdate, List.isEmpty_iff] using hp,
      by simpa [agentStateUpdate] using hlt⟩]
    simp [agentStateUpdate, stepDispatchTarget]
  · intro hE hp hge
    have hne : ¬(s.plan.isEmpty = true) := by simpa [List.isEmpty_iff] using hp
    have hnlt : ¬(s.planStepIndex < s.plan.length) := by omega
    unfold routerAgentNode
    rw [if_neg (by simp [hE]), if_neg (by intro h; exact hnlt h.2), if_pos ⟨hne, hge⟩]
    refine ⟨by simp [agentStateUpdate], ?_⟩
    simp [routeFromState, agentStateUpdate, pyOr, VALID_DISPATCH_AGENTS]
  · intro hE hp hpos
    have hisE : s.plan.isEmpty = true := by simp [hp]
    unfold routerAgentNode
    rw [if_neg (by simp [hE]), if_neg (by simp [hisE]), if_neg (by simp [hisE]),
      if_pos ⟨hisE, hpos⟩]
    refine ⟨by simp [agentStateUpdate], ?_⟩
    simp [routeFromState, agentStateUpdate, pyOr, VALID_DISPATCH_AGENTS]
  · intro hE hp hz hne
    have hisE : s.plan.isEmpty = true := by simp [hp]
    have hframe := routeFromUserMessage_frame routeLLM s
    unfold routerAgentNode
    rw [if_neg (by simp [hE]), if_neg (by simp [hisE]), if_neg (by simp [hisE]),
      if_neg (by simp [hz])]
    cases hr : routeFromUserMessage routeLLM s with
    | mk agentName rest =>
      cases rest with
      | mk refusalMessage s2 =>
        rw [hr] at hframe hne
        simp only at hne
        constructor
        · simp [agentStateUpdate, pyOr, hr, hne]
        · have hmsg : s2.messages = s.messages := by simpa using hframe.1
          simp [agentStateUpdate, hr, hmsg]

/-- C2 (witness): the dispatch rule applied at a concrete state whose
current plan step names the chart agent. -/
theorem router_decision_spec_witness :
    routeFromState (routerAgentNode (Except.error "offline")
      { messages := [Msg.human "chart it"]
        activeAgent := "router"
        lastRows := []
        plan := [{ agent := some "chart_agent" }]
        planStepIndex := 0
        planMode := "default"
        hasError := false }) = "chart_agent" :=
  (((router_decision_spec (Except.error "offline") _).2.1 rfl
    (by decide) (by decide)).2.2.2).trans (by decide)

/-- C7 (counterexample): the refusal agent does not reset the
clarification status — on a state with a pending clarification the
returned status is still `"pending"`, not `"none"`. -/
theorem refusal_keeps_clarification_cex :
    ((refusalAgentNode pendingClarState).clarification.map Clarification.status) ≠
      some "none" ∧
    ((refusalAgentNode pendingClarState).clarification.map Clarification.status) =
      some "pending" := by
  refine ⟨by decide, by decide⟩

/-- C7 (amended): the refusal agent emits exactly the fixed refusal
message, clears the plan, advances the plan cursor by one, and carries
the clarification field over unchanged (defaulting it to `"none"` only
when absent); consequently the next router pass terminates. -/
theorem refusal_agent_spec (routeLLM : Except String String) (s : ObsState) :
    (refusalAgentNode s).messages = s.messages ++ [Msg.ai REFUSAL_MESSAGE] ∧
    (refusalAgentNode s).plan = [] ∧
    (refusalAgentNode s).planStepIndex = s.planStepIndex + 1 ∧
    (refusalAgentNode s).clarification =
      some (s.clarification.getD { status := "none" }) ∧
    routeFromState (routerAgentNode routeLLM (refusalAgentNode s)) = "complete" := by
  refine ⟨by simp [refusalAgentNode, agentStateUpdate],
    by simp [refusalAgentNode, agentStateUpdate],
    by simp [refusalAgentNode, agentStateUpdate],
    by simp [refusalAgentNode, agentStateUpdate], ?_⟩
  by_cases hE : (refusalAgentNode s).hasError
  · simp [routerAgentNode, hE, routeFromState, agentStateUpdate, pyOr,
      VALID_DISPATCH_AGENTS]
  · have hplan : (refusalAgentNode s).plan = [] := by
      simp [refusalAgentNode, agentStateUpdate]
    have hpos : 0 < (refusalAgentNode s).planStepIndex := by
      simp [refusalAgentNode, agentStateUpdate]
    unfold routerAgentNode
    rw [if_neg hE, if_neg (by simp [hplan]), if_neg (by simp [hplan]),
      if_pos ⟨by simp [hplan], hpos⟩]
    simp [routeFromState, agentStateUpdate, pyOr, VALID_DISPATCH_AGENTS]

/-- C8: when the first diagnostics result set is missing or empty, the
summary agent emits exactly the fixed could-not-compare message, consults
no summarization capability (its output is independent of the narrative
oracle), and still advances the cursor; and in every case the returned
`diagnostics_context.results` equals the input results list. -/
theorem diagnostics_summary_spec (narrative narrativeB : String) (s : ObsState) :
    (diagFirstRows s = [] →
      (diagnosticsSummaryAgentNode narrative s).messages =
        s.messages ++ [Msg.ai DIAG_EMPTY_MESSAGE] ∧
      diagnosticsSummaryAgentNode narrative s =
        diagnosticsSummaryAgentNode narrativeB s) ∧
    ((diagnosticsSummaryAgentNode narrative s).diagnosticsContext.map
        DiagCtx.results =
      some (s.diagnosticsContext.getD { results := [] }).results) ∧
    (diagnosticsSummaryAgentNode narrative s).planStepIndex =
      s.planStepIndex + 1 := by
  refine ⟨?_, ?_, ?_⟩
  · intro hempty
    unfold diagnosticsSummaryAgentNode
    rw [if_pos (by simpa [diagFirstRows, List.isEmpty_iff] using hempty),
      if_pos (by simpa [diagFirstRows, List.isEmpty_iff] using hempty)]
    simp [agentStateUpdate]
  · unfold diagnosticsSummaryAgentNode
    dsimp only
    split_ifs <;> simp [agentStateUpdate]
  · unfold diagnosticsSummaryAgentNode
    dsimp only
    split_ifs <;> simp [agentStateUpdate]

/-- C8 (witness): the empty-evidence branch applied to a concrete state
with one empty result set. -/
theorem diagnostics_summary_spec_witness :
    (diagnosticsSummaryAgentNode "narrative A"
        { messages := [Msg.human "why is latency up?"]
          activeAgent := "metrics_agent"
          lastRows := []
          plan := []
          planStepIndex := 3
          planMode := "diagnostics"
          diagnosticsContext := some
            { results := [⟨"overall_change", "compare windows", []⟩] }
          hasError := false }).messages =
      [Msg.human "why is latency up?"] ++ [Msg.ai DIAG_EMPTY_MESSAGE] :=
  ((diagnostics_summary_spec "narrative A" "narrative B" _).1 (by decide)).1

/-- C10: starting a turn from a previous state resets the plan machinery
(`plan = []`, cursor `0`, `has_error = False`) while carrying the
conversation over: the messages with the new user message appended, and
`active_agent`, `last_rows`, `plan_mode` and `diagnostics_context`
unchanged (the latter defaulting to an empty-results context only when
the previous state lacked one). -/
theorem init_turn_state_spec (userMessage : String) (prev : ObsState) :
    (initTurnState userMessage (some prev)).plan = [] ∧
    (initTurnState userMessage (some prev)).planStepIndex = 0 ∧
    (initTurnState userMessage (some prev)).hasError = false ∧
    (initTurnState userMessage (some prev)).messages =
      prev.messages ++ [Msg.human userMessage] ∧
    (initTurnState userMessage (some prev)).activeAgent = prev.activeAgent ∧
    (initTurnState userMessage (some prev)).lastRows = prev.lastRows ∧
    (initTurnState userMessage (some prev)).planMode = prev.planMode ∧
    (initTurnState userMessage (some prev)).diagnosticsContext =
      some (prev.diagnosticsContext.getD { results := [] }) ∧
    (∀ d, prev.diagnosticsContext = some d →
      (initTurnState userMessage (some prev)).diagnosticsContext = some d) := by
  refine ⟨rfl, rfl, rfl, rfl, rfl, rfl, rfl, rfl, ?_⟩
  intro d hd
  simp [initTurnState, hd]

/-- C10 (witness): the carried-over diagnostics context on a concrete
previous state. -/
theorem init_turn_state_spec_witness :
    (initTurnState "and by tool?" pendingClarState).diagnosticsContext =
      some { results := [] } :=
  (init_turn_state_spec "and by tool?" pendingClarState).2.2.2.2.2.2.2.2
    { results := [] } rfl

/-! ## Claim theorems: diagnostics short-circuit and the cursor invariant -/

/-- Helper: on an error-free state with an in-bounds plan step, the
router pass dispatches to that step's (recognized) agent. -/
theorem router_dispatch_helper (routeLLM : Except String String) (s : ObsState)
    (hE : s.hasError = false) (hp : s.plan ≠ [])
    (hlt : s.planStepIndex < s.plan.length) :
    routeFromState (routerAgentNode routeLLM s) =
      stepDispatchTarget (s.plan.getD s.planStepIndex {}) := by
  have hne : ¬(s.plan.isEmpty = true) := by simpa [List.isEmpty_iff] using hp
  unfold routerAgentNode
  rw [if_neg (by simp [hE]), if_pos ⟨hne, hlt⟩]
  unfold routeFromState
  rw [if_pos ⟨by simpa [agentStateUpdate, List.isEmpty_iff] using hp,
    by simpa [agentStateUpdate] using hlt⟩]
  simp [agentStateUpdate, stepDispatchTarget]

/-- C3: in a diagnostics-mode plan, when the currently executed step is
the first step, is named `overall_change`, and its executed SQL returns
zero rows, the metrics agent jumps the plan cursor to the last plan
index, so the router's next pass dispatches the final (summary) step. -/
theorem diagnostics_short_circuit_spec
    (genInit : SqlResp) (repair : Nat → SqlResp)
    (exec : String → Except String ExecResult) (summaryText : String)
    (routeLLM : Except String String) (s : ObsState) (res : ExecResult)
    (hmode : s.planMode = "diagnostics")
    (hidx : s.planStepIndex = 0)
    (hlen : 2 ≤ s.plan.length)
    (hname : (s.plan.getD 0 {}).name = some "overall_change")
    (hE : s.hasError = false)
    (hres : (attemptSqlExecution exec (fun i => (repair i).sqlQuery)
        genInit.sqlQuery).result = some res)
    (hrows : res.rows = []) :
    (metricsAgentNode genInit repair exec summaryText s).planStepIndex =
      s.plan.length - 1 ∧
    routeFromState (routerAgentNode routeLLM
        (metricsAgentNode genInit repair exec summaryText s)) =
      stepDispatchTarget (s.plan.getD (s.plan.length - 1) {}) := by
  have hp : s.plan ≠ [] := by
    intro h
    rw [h] at hlen
    simp at hlen
  have hne : ¬(s.plan.isEmpty = true) := by simpa [List.isEmpty_iff] using hp
  have hlt : s.planStepIndex < s.plan.length := by omega
  have key : (metricsAgentNode genInit repair exec summaryText s).plan = s.plan ∧
      (metricsAgentNode genInit repair exec summaryText s).planStepIndex =
        s.plan.length - 1 ∧
      (metricsAgentNode genInit repair exec summaryText s).hasError =
        s.hasError := by
    unfold metricsAgentNode
    dsimp only
    rw [hres]
    dsimp only
    have hcond : s.planMode = "diagnostics" ∧
        (Option.any (fun st => st.name == some "overall_change")
          (if ¬(s.plan.isEmpty = true) ∧ s.planStepIndex < s.plan.length then
            some (s.plan.getD s.planStepIndex {}) else none)) = true ∧
        (res.rows.map (fun row => res.columns.zip row)).isEmpty = true := by
      refine ⟨hmode, ?_, by simp [hrows]⟩
      rw [if_pos ⟨hne, hlt⟩, hidx]
      simp only [Option.any]
      rw [hname]
      simp
    rw [if_pos hcond]
    refine ⟨by simp [agentStateUpdate], ?_, by simp [agentStateUpdate]⟩
    dsimp only
    omega
  refine ⟨key.2.1, ?_⟩
  have hd := router_dispatch_helper routeLLM
    (metricsAgentNode genInit repair exec summaryText s)
    (key.2.2.trans hE) (by rw [key.1]; exact hp)
    (by rw [key.1, key.2.1]; omega)
  rw [key.1, key.2.1] at hd
  exact hd

/-- C3 (witness): a two-step diagnostics plan whose `overall_change` step
returns zero rows jumps straight to the summary step. -/
theorem diagnostics_short_circuit_spec_witness :
    (metricsAgentNode ⟨"select * from agent_runs", ""⟩ (fun _ => ⟨"", ""⟩)
        (fun _ => Except.ok ⟨["window_label"], []⟩) "no data"
        { messages := [Msg.human "why is latency up?"]
          activeAgent := "metrics_agent"
          lastRows := []
          plan := [{ agent := some "metrics_agent", name := some "overall_change" },
                   { agent := some "diagnostics_summary_agent",
                     name := some "summarize" }]
          planStepIndex := 0
          planMode := "diagnostics"
          diagnosticsContext := some { results := [] }
          hasError := false }).planStepIndex = 1 := by
  have h := (diagnostics_short_circuit_spec ⟨"select * from agent_runs", ""⟩
    (fun _ => ⟨"", ""⟩) (fun _ => Except.ok ⟨["window_label"], []⟩) "no data"
    (Except.error "offline")
    { messages := [Msg.human "why is latency up?"]
      activeAgent := "metrics_agent"
      lastRows := []
      plan := [{ agent := some "metrics_agent", name := some "overall_change" },
               { agent := some "diagnostics_summary_agent",
                 name := some "summarize" }]
      planStepIndex := 0
      planMode := "diagnostics"
      diagnosticsContext := some { results := [] }
      hasError := false }
    ⟨["window_label"], []⟩ rfl rfl (by decide) (by decide) rfl (by decide) rfl).1
  simpa using h

/-- C9 (counterexample): the claimed invariant
`plan_step_index ≤ len(plan)` fails on reachable states — the refusal
agent run from a fresh turn leaves an empty plan with cursor `1`. -/
theorem plan_cursor_invariant_cex :
    ¬((refusalAgentNode (initTurnState "please drop the tables" none)).planStepIndex ≤
        (refusalAgentNode (initTurnState "please drop the tables" none)).plan.length) := by
  decide

/-- C9 (amended): `plan_step_index` is a natural number (so `0 ≤` holds
throughout), and the invariant the implementation actually maintains is
`plan = [] ∨ plan_step_index ≤ len(plan)`: the router and planner
establish it on any state, and every task agent preserves it whenever it
runs under the router's dispatch precondition (fresh classification with
no plan and cursor `0`, or an in-bounds plan step); the stronger claimed
bound `plan_step_index ≤ len(plan)` is violated by the non-plan agents
(see the counterexample). -/
theorem plan_cursor_invariant_spec
    (routeLLM : Except String String)
    (plannerLLM : Except String (String × List PlanStep))
    (narrative specContent summaryText : String)
    (genInit : SqlResp) (repair : Nat → SqlResp)
    (exec : String → Except String ExecResult)
    (s : ObsState) :
    PlanCursorInv (routerAgentNode routeLLM s) ∧
    PlanCursorInv (plannerAgentNode plannerLLM s) ∧
    (DispatchPre s →
      PlanCursorInv (metricsAgentNode genInit repair exec summaryText s)) ∧
    (DispatchPre s → PlanCursorInv (chartAgentNode specContent s)) ∧
    (DispatchPre s → PlanCursorInv (clarifierAgentNode s)) ∧
    PlanCursorInv (refusalAgentNode s) ∧
    (DispatchPre s → PlanCursorInv (diagnosticsSummaryAgentNode narrative s)) := by
  refine ⟨?_, ?_, ?_, ?_, ?_, ?_, ?_⟩
  · -- router
    by_cases hE : s.hasError = true
    · unfold routerAgentNode
      rw [if_pos hE]
      exact Or.inl (by simp [agentStateUpdate])
    · by_cases hdisp : ¬(s.plan.isEmpty = true) ∧ s.planStepIndex < s.plan.length
      · unfold routerAgentNode
        rw [if_neg hE, if_pos hdisp]
        exact Or.inr (by simpa [agentStateUpdate] using Nat.le_of_lt hdisp.2)
      · by_cases hexh : ¬(s.plan.isEmpty = true) ∧ s.plan.length ≤ s.planStepIndex
        · unfold routerAgentNode
          rw [if_neg hE, if_neg hdisp, if_pos hexh]
          exact Or.inl (by simp [agentStateUpdate])
        · by_cases hdone : s.plan.isEmpty = true ∧ 0 < s.planStepIndex
          · unfold routerAgentNode
            rw [if_neg hE, if_neg hdisp, if_neg hexh, if_pos hdone]
            exact Or.inl (by simp [agentStateUpdate])
          · have hisE : s.plan.isEmpty = true := by
              by_cases h : s.plan.isEmpty = true
              · exact h
              · exfalso
                have hlt : ¬(s.planStepIndex < s.plan.length) :=
                  fun hc => hdisp ⟨h, hc⟩
                have hge : ¬(s.plan.length ≤ s.planStepIndex) :=
                  fun hc => hexh ⟨h, hc⟩
                omega
            unfold routerAgentNode
            rw [if_neg hE, if_neg hdisp, if_neg hexh, if_neg hdone]
            rcases hr : routeFromUserMessage routeLLM s with ⟨a, m, s2⟩
            have hframe := routeFromUserMessage_frame routeLLM s
            rw [hr] at hframe
            have hplan2 : s2.plan = s.plan := by simpa using hframe.2.1
            exact Or.inl (by
              simp [agentStateUpdate, hplan2, List.isEmpty_iff.mp hisE])
  · -- planner
    cases plannerLLM with
    | ok v => exact Or.inr (by simp [plannerAgentNode])
    | error e => exact Or.inr (by simp [plannerAgentNode])
  · -- metrics
    intro hpre
    unfold metricsAgentNode
    dsimp only
    cases hout : (attemptSqlExecution exec (fun i => (repair i).sqlQuery)
        genInit.sqlQuery).result with
    | none =>
      rcases hpre with ⟨hp, hz⟩ | hlt
      · exact Or.inl (by simp [agentStateUpdate, hp])
      · exact Or.inr (by simpa [agentStateUpdate] using hlt)
    | some res =>
      rcases hpre with ⟨hp, hz⟩ | hlt
      · exact Or.inl (by simp [agentStateUpdate, hp])
      · refine Or.inr ?_
        simp only [agentStateUpdate]
        split_ifs <;> omega
  · -- chart
    intro hpre
    unfold chartAgentNode
    rcases hpre with ⟨hp, hz⟩ | hlt
    · split_ifs <;> exact Or.inl (by simp [agentStateUpdate, hp])
    · split_ifs <;> exact Or.inr (by simpa [agentStateUpdate] using hlt)
  · -- clarifier
    intro hpre
    rcases hpre with ⟨hp, hz⟩ | hlt
    · exact Or.inl (by simp [clarifierAgentNode, agentStateUpdate, hp])
    · exact Or.inr (by simpa [clarifierAgentNode, agentStateUpdate] using hlt)
  · -- refusal
    exact Or.inl (by simp [refusalAgentNode, agentStateUpdate])
  · -- diagnostics summary
    intro hpre
    unfold diagnosticsSummaryAgentNode
    dsimp only
    rcases hpre with ⟨hp, hz⟩ | hlt
    · split_ifs <;> exact Or.inl (by simp [agentStateUpdate, hp])
    · split_ifs <;> exact Or.inr (by simpa [agentStateUpdate] using hlt)

/-- C9 (witness): the metrics agent run from a fresh classification
preserves the (amended) invariant. -/
theorem plan_cursor_invariant_spec_witness :
    PlanCursorInv (metricsAgentNode ⟨"select * from agent_runs", ""⟩
      (fun _ => ⟨"", ""⟩) (fun _ => Except.ok ⟨[], []⟩) "summary"
      (initTurnState "list the agent runs" none)) :=
  (plan_cursor_invariant_spec (Except.error "offline") (Except.error "offline")
    "n" "c" "summary" ⟨"select * from agent_runs", ""⟩ (fun _ => ⟨"", ""⟩)
    (fun _ => Except.ok ⟨[], []⟩)
    (initTurnState "list the agent runs" none)).2.2.1
    (Or.inl ⟨rfl, rfl⟩)

end ObsAgent
